import Mathlib

/-!
Shallow embedding of a small Rust blockchain state machine consisting of a
System pallet (block number and per-account nonces), a Balances pallet
(per-account u128 balances with a checked transfer), a Proof of Existence
pallet (a claims map from content to owner), and a Runtime that routes
dispatched calls to the owning pallet and executes blocks of extrinsics.

Machine integers are modelled as Nat: unchecked u32 addition (block number
and nonce increments) reduces modulo 2 ^ 32, and checked u128 arithmetic
(balances) returns an Option with an explicit bound at 2 ^ 128. The Rust
BTreeMap is modelled as an association list whose operations look up,
replace or remove the first entry with the given key; maps built by the
program always have distinct keys. Stateful Rust methods that take a
mutable receiver and return a Result are modelled as functions from the
pallet state to a pair of the new state and an Except value, where the
error paths return the unchanged state.
-/

namespace StateMachine

/-- Account identifiers (the Rust runtime instantiates them with String). -/
abbrev AccountId := String

/-- Claimed content (the Rust runtime instantiates it with a static string). -/
abbrev Content := String

/-- Modulus of the u32 type used for block numbers and nonces. -/
def U32_MOD : Nat := 2 ^ 32

/-- One more than the largest u128 value. -/
def U128_MOD : Nat := 2 ^ 128

/-- Result type of dispatchable calls: Ok or a static error message. -/
abbrev DispatchResult := Except String Unit

/-- BTreeMap get: the value stored for the key, if any. -/
def btGet {V : Type} : List (String × V) → String → Option V
  | [], _ => none
  | (k1, v) :: rest, k => if k1 = k then some v else btGet rest k

/-- BTreeMap insert: replace the entry with this key, or append a new one. -/
def btInsert {V : Type} (k : String) (v : V) : List (String × V) → List (String × V)
  | [] => [(k, v)]
  | (k1, v1) :: rest =>
    if k1 = k then (k, v) :: rest else (k1, v1) :: btInsert k v rest

/-- BTreeMap remove: drop the entry with this key. -/
def btRemove {V : Type} (k : String) : List (String × V) → List (String × V)
  | [] => []
  | (k1, v1) :: rest => if k1 = k then rest else (k1, v1) :: btRemove k rest

/-- BTreeMap contains_key. -/
def btContains {V : Type} (m : List (String × V)) (k : String) : Bool :=
  (btGet m k).isSome

/-- State of the Balances pallet: a map from account to balance. -/
structure BalancesPallet where
  balances : List (AccountId × Nat)

/-- Checked u128 subtraction: none on underflow. -/
def u128CheckedSub (a b : Nat) : Option Nat :=
  if b ≤ a then some (a - b) else none

/-- Checked u128 addition: none when the sum exceeds the largest u128 value. -/
def u128CheckedAdd (a b : Nat) : Option Nat :=
  if a + b < U128_MOD then some (a + b) else none

/-- Balance of an account, zero when the account is absent from the map. -/
def balance (p : BalancesPallet) (who : AccountId) : Nat :=
  (btGet p.balances who).getD 0

/-- Unconditionally overwrite the balance of an account. -/
def set_balance (p : BalancesPallet) (who : AccountId) (amount : Nat) : BalancesPallet :=
  { balances := btInsert who amount p.balances }

/-- Transfer an amount from the caller to another account, checking for
underflow of the caller balance and overflow of the destination balance.
On an error path the state is returned unchanged. -/
def transfer (p : BalancesPallet) (caller «to» : AccountId) (amount : Nat) :
    BalancesPallet × DispatchResult :=
  let caller_balance := balance p caller
  let to_balance := balance p «to»
  match u128CheckedSub caller_balance amount with
  | none => (p, Except.error "Insufficient funds.")
  | some new_caller_balance =>
    match u128CheckedAdd to_balance amount with
    | none => (p, Except.error "Overflow.")
    | some new_to_balance =>
      ({ balances := btInsert «to» new_to_balance (btInsert caller new_caller_balance p.balances) },
        Except.ok ())

/-- State of the System pallet: current block number and per-account nonces. -/
structure SystemPallet where
  block_number : Nat
  nonce : List (AccountId × Nat)

/-- Increment the block number by one (unchecked u32 addition). -/
def inc_block_number (s : SystemPallet) : SystemPallet :=
  { s with block_number := (s.block_number + 1) % U32_MOD }

/-- Increment the nonce of an account: read the current nonce (zero when
absent) and store its successor (unchecked u32 addition). -/
def inc_nonce (s : SystemPallet) (who : AccountId) : SystemPallet :=
  let nonce := (btGet s.nonce who).getD 0
  let new_nonce := (nonce + 1) % U32_MOD
  { s with nonce := btInsert who new_nonce s.nonce }

/-- Nonce of an account, zero when absent (observer used to state properties). -/
def nonceOf (s : SystemPallet) (who : AccountId) : Nat :=
  (btGet s.nonce who).getD 0

/-- State of the Proof of Existence pallet: a map from content to owner. -/
structure PoePallet where
  claims : List (Content × AccountId)

/-- Owner of a claim, if any. -/
def get_claim (p : PoePallet) (claim : Content) : Option AccountId :=
  btGet p.claims claim

/-- Create a claim on behalf of the caller; fails when the content is
already claimed. -/
def create_claim (p : PoePallet) (caller : AccountId) (claim : Content) :
    PoePallet × DispatchResult :=
  if btContains p.claims claim then
    (p, Except.error "This content is already been claimed.")
  else
    ({ claims := btInsert claim caller p.claims }, Except.ok ())

/-- Revoke an existing claim; fails when the claim does not exist or when
the caller is not its owner. -/
def revoke_claim (p : PoePallet) (caller : AccountId) (claim : Content) :
    PoePallet × DispatchResult :=
  match get_claim p claim with
  | none => (p, Except.error "Claim does not exist.")
  | some owner =>
    if owner ≠ caller then
      (p, Except.error "This content is owned by some other user.")
    else
      ({ claims := btRemove claim p.claims }, Except.ok ())

/-- Calls exposed by the Balances pallet. -/
inductive BalancesCall where
  | transfer («to» : AccountId) (amount : Nat)

/-- Calls exposed by the Proof of Existence pallet. -/
inductive PoeCall where
  | create_claim (claim : Content)
  | revoke_claim (claim : Content)

/-- Top-level runtime call: one case per pallet. -/
inductive RuntimeCall where
  | Balances (call : BalancesCall)
  | ProofOfExistence (call : PoeCall)

/-- The Runtime owns one instance of each pallet. -/
structure Runtime where
  system : SystemPallet
  balances : BalancesPallet
  proof_of_existence : PoePallet

/-- Dispatch implementation of the Balances pallet. -/
def balancesDispatch (p : BalancesPallet) (caller : AccountId) :
    BalancesCall → BalancesPallet × DispatchResult
  | .transfer «to» amount => transfer p caller «to» amount

/-- Dispatch implementation of the Proof of Existence pallet. -/
def poeDispatch (p : PoePallet) (caller : AccountId) :
    PoeCall → PoePallet × DispatchResult
  | .create_claim claim => create_claim p caller claim
  | .revoke_claim claim => revoke_claim p caller claim

/-- Dispatch implementation of the Runtime: route the call to the owning
pallet and propagate its result. -/
def runtimeDispatch (rt : Runtime) (caller : AccountId) :
    RuntimeCall → Runtime × DispatchResult
  | .Balances call =>
    let res := balancesDispatch rt.balances caller call
    ({ rt with balances := res.1 }, res.2)
  | .ProofOfExistence call =>
    let res := poeDispatch rt.proof_of_existence caller call
    ({ rt with proof_of_existence := res.1 }, res.2)

/-- A block header holds only the declared block number. -/
structure Header where
  block_number : Nat

/-- An extrinsic: an external message naming the caller and the call. -/
structure Extrinsic where
  caller : AccountId
  call : RuntimeCall

/-- A block: a header plus an ordered sequence of extrinsics. -/
structure Block where
  header : Header
  extrinsics : List Extrinsic

/-- One iteration of the block execution loop: increment the caller nonce,
dispatch the call, and keep the new state while discarding the result. -/
def applyExtrinsic (rt : Runtime) (ex : Extrinsic) : Runtime :=
  let rt1 := { rt with system := inc_nonce rt.system ex.caller }
  (runtimeDispatch rt1 ex.caller ex.call).1

/-- The block execution loop over the list of extrinsics, in order. -/
def processExtrinsics (rt : Runtime) : List Extrinsic → Runtime
  | [] => rt
  | ex :: rest => processExtrinsics (applyExtrinsic rt ex) rest

/-- Execute a block: increment the block number, reject the block when the
header number differs from the new block number, and otherwise run every
extrinsic and return Ok. -/
def execute_block (rt : Runtime) (b : Block) : Runtime × DispatchResult :=
  let rt1 := { rt with system := inc_block_number rt.system }
  if rt1.system.block_number ≠ b.header.block_number then
    (rt1, Except.error "The current block number is invalid.")
  else
    (processExtrinsics rt1 b.extrinsics, Except.ok ())

/-- Sum of the stored values of a map (used for balance conservation). -/
def valSum : List (String × Nat) → Nat
  | [] => 0
  | (_, v) :: rest => v + valSum rest

/-- Total balance held across all stored accounts. -/
def totalBalance (p : BalancesPallet) : Nat := valSum p.balances

/-! Helper lemmas about the association-list map operations. -/

theorem btGet_insert_self {V : Type} (m : List (String × V)) (k : String) (v : V) :
    btGet (btInsert k v m) k = some v := by
  induction m with
  | nil => simp [btInsert, btGet]
  | cons hd tl ih =>
    obtain ⟨k1, v1⟩ := hd
    by_cases h : k1 = k
    · simp [btInsert, btGet, h]
    · simp [btInsert, btGet, h, ih]

theorem btGet_insert_ne {V : Type} (m : List (String × V)) (k k1 : String) (v : V)
    (h : k1 ≠ k) : btGet (btInsert k v m) k1 = btGet m k1 := by
  induction m with
  | nil => simp [btInsert, btGet, Ne.symm h]
  | cons hd tl ih =>
    obtain ⟨k2, v2⟩ := hd
    by_cases h2 : k2 = k
    · subst h2
      simp [btInsert, btGet, Ne.symm h]
    · simp [btInsert, btGet, h2, ih]

theorem btGet_eq_none_of_not_mem {V : Type} (m : List (String × V)) (k : String)
    (h : k ∉ m.map Prod.fst) : btGet m k = none := by
  induction m with
  | nil => simp [btGet]
  | cons hd tl ih =>
    obtain ⟨k1, v1⟩ := hd
    simp only [List.map_cons, List.mem_cons] at h
    push_neg at h
    simp [btGet, Ne.symm h.1, ih h.2]

theorem btGet_remove_self {V : Type} (m : List (String × V)) (k : String)
    (h : (m.map Prod.fst).Nodup) : btGet (btRemove k m) k = none := by
  induction m with
  | nil => simp [btRemove, btGet]
  | cons hd tl ih =>
    obtain ⟨k1, v1⟩ := hd
    simp only [List.map_cons, List.nodup_cons] at h
    by_cases h1 : k1 = k
    · subst h1
      simp [btRemove, btGet_eq_none_of_not_mem tl k1 h.1]
    · simp [btRemove, btGet, h1, ih h.2]

theorem valSum_insert (m : List (String × Nat)) (k : String) (v : Nat) :
    valSum (btInsert k v m) + (btGet m k).getD 0 = valSum m + v := by
  induction m with
  | nil => simp [btInsert, btGet, valSum]
  | cons hd tl ih =>
    obtain ⟨k1, v1⟩ := hd
    by_cases h : k1 = k
    · simp only [btInsert, btGet, if_pos h, valSum, Option.getD_some]
      omega
    · simp only [btInsert, btGet, if_neg h, valSum]
      omega

/-! Helper lemmas characterising the error and success paths of the pallet
operations and of dispatch. -/

theorem transfer_eq_insufficient (p : BalancesPallet) (caller «to» : AccountId)
    (amount : Nat) (h : balance p caller < amount) :
    transfer p caller «to» amount = (p, Except.error "Insufficient funds.") := by
  have h1 : u128CheckedSub (balance p caller) amount = none := by
    unfold u128CheckedSub
    rw [if_neg (not_le.mpr h)]
  simp [transfer, h1]

theorem transfer_eq_overflow (p : BalancesPallet) (caller «to» : AccountId)
    (amount : Nat) (h : amount ≤ balance p caller)
    (h2 : U128_MOD ≤ balance p «to» + amount) :
    transfer p caller «to» amount = (p, Except.error "Overflow.") := by
  have e1 : u128CheckedSub (balance p caller) amount
      = some (balance p caller - amount) := by
    unfold u128CheckedSub
    rw [if_pos h]
  have e2 : u128CheckedAdd (balance p «to») amount = none := by
    unfold u128CheckedAdd
    rw [if_neg (not_lt.mpr h2)]
  simp [transfer, e1, e2]

theorem transfer_eq_ok (p : BalancesPallet) (caller «to» : AccountId)
    (amount : Nat) (h : amount ≤ balance p caller)
    (h2 : balance p «to» + amount < U128_MOD) :
    transfer p caller «to» amount =
      (⟨btInsert «to» (balance p «to» + amount)
          (btInsert caller (balance p caller - amount) p.balances)⟩,
        Except.ok ()) := by
  have e1 : u128CheckedSub (balance p caller) amount
      = some (balance p caller - amount) := by
    unfold u128CheckedSub
    rw [if_pos h]
  have e2 : u128CheckedAdd (balance p «to») amount
      = some (balance p «to» + amount) := by
    unfold u128CheckedAdd
    rw [if_pos h2]
  simp [transfer, e1, e2]

theorem transfer_error_state (p : BalancesPallet) (caller «to» : AccountId)
    (amount : Nat) (h : (transfer p caller «to» amount).2 ≠ Except.ok ()) :
    (transfer p caller «to» amount).1 = p := by
  by_cases h1 : amount ≤ balance p caller
  · by_cases h2 : balance p «to» + amount < U128_MOD
    · exact absurd (by rw [transfer_eq_ok p caller «to» amount h1 h2]) h
    · rw [transfer_eq_overflow p caller «to» amount h1 (not_lt.mp h2)]
  · rw [transfer_eq_insufficient p caller «to» amount (not_le.mp h1)]

theorem create_claim_error_state (p : PoePallet) (caller : AccountId) (c : Content)
    (h : (create_claim p caller c).2 ≠ Except.ok ()) :
    (create_claim p caller c).1 = p := by
  by_cases h1 : btContains p.claims c
  · simp [create_claim, h1]
  · exact absurd (by simp [create_claim, h1]) h

theorem revoke_claim_error_state (p : PoePallet) (caller : AccountId) (c : Content)
    (h : (revoke_claim p caller c).2 ≠ Except.ok ()) :
    (revoke_claim p caller c).1 = p := by
  cases h1 : get_claim p c with
  | none => simp [revoke_claim, h1]
  | some owner =>
    by_cases h2 : owner = caller
    · exact absurd (by simp [revoke_claim, h1, h2]) h
    · simp [revoke_claim, h1, h2]

theorem runtimeDispatch_system (rt : Runtime) (caller : AccountId)
    (call : RuntimeCall) : (runtimeDispatch rt caller call).1.system = rt.system := by
  cases call <;> rfl

theorem runtimeDispatch_error_state (rt : Runtime) (caller : AccountId)
    (call : RuntimeCall) (h : (runtimeDispatch rt caller call).2 ≠ Except.ok ()) :
    (runtimeDispatch rt caller call).1 = rt := by
  cases call with
  | Balances call =>
    cases call with
    | transfer «to» amount =>
      have hb : (transfer rt.balances caller «to» amount).1 = rt.balances :=
        transfer_error_state rt.balances caller «to» amount h
      show ({ rt with balances := (transfer rt.balances caller «to» amount).1 } : Runtime) = rt
      rw [hb]
  | ProofOfExistence call =>
    cases call with
    | create_claim c =>
      have hp : (create_claim rt.proof_of_existence caller c).1 = rt.proof_of_existence :=
        create_claim_error_state rt.proof_of_existence caller c h
      show ({ rt with proof_of_existence := (create_claim rt.proof_of_existence caller c).1 } : Runtime) = rt
      rw [hp]
    | revoke_claim c =>
      have hp : (revoke_claim rt.proof_of_existence caller c).1 = rt.proof_of_existence :=
        revoke_claim_error_state rt.proof_of_existence caller c h
      show ({ rt with proof_of_existence := (revoke_claim rt.proof_of_existence caller c).1 } : Runtime) = rt
      rw [hp]

theorem processExtrinsics_eq_foldl (xs : List Extrinsic) (rt : Runtime) :
    processExtrinsics rt xs = xs.foldl applyExtrinsic rt := by
  induction xs generalizing rt with
  | nil => rfl
  | cons ex rest ih => simp [processExtrinsics, List.foldl, ih]

theorem applyExtrinsic_system (rt : Runtime) (ex : Extrinsic) :
    (applyExtrinsic rt ex).system = inc_nonce rt.system ex.caller := by
  unfold applyExtrinsic
  exact runtimeDispatch_system _ ex.caller ex.call

/-! Concrete states used by the witnesses below. -/

/-- Witness runtime: block number zero, one account holding 100, no claims. -/
def demoRuntime : Runtime := ⟨⟨0, []⟩, ⟨[("alice", 100)]⟩, ⟨[]⟩⟩

/-- Witness block 1: a transfer that fails for insufficient funds followed by
a valid independent transfer, both submitted by the same caller. -/
def demoBlock : Block :=
  ⟨⟨1⟩, [⟨"alice", RuntimeCall.Balances (BalancesCall.transfer "bob" 500)⟩,
    ⟨"alice", RuntimeCall.Balances (BalancesCall.transfer "charlie" 20)⟩]⟩

/-- Witness block whose header number does not match the next block number. -/
def demoBadBlock : Block :=
  ⟨⟨5⟩, [⟨"alice", RuntimeCall.Balances (BalancesCall.transfer "bob" 10)⟩]⟩

/-- Witness balances state: one account holding 100. -/
def demoBalances : BalancesPallet := ⟨[("alice", 100)]⟩

/-- Witness claims state: one claimed content. -/
def demoClaims : PoePallet := ⟨[("hello", "alice")]⟩

/-! The claims. -/

/-- C1, counterexample to the claim as stated: with a stored balance of 100,
a self-transfer of 30 satisfies the precondition 30 le balance, returns Ok,
and yet the resulting stored balance is 130, not the pre-transfer 100: the
second map write stores the pre-transfer balance plus the amount. -/
theorem self_transfer_claim_counterexample :
    30 ≤ balance (⟨[("alice", 100)]⟩ : BalancesPallet) "alice" ∧
    (transfer (⟨[("alice", 100)]⟩ : BalancesPallet) "alice" "alice" 30).2 = Except.ok () ∧
    balance (⟨[("alice", 100)]⟩ : BalancesPallet) "alice" = 100 ∧
    balance (transfer (⟨[("alice", 100)]⟩ : BalancesPallet) "alice" "alice" 30).1 "alice" = 130 :=
  ⟨by decide, rfl, by decide, by decide⟩

/-- C1, amended: for every account a and amount m with m le balance(a) and
balance(a) + m below 2 ^ 128, the self-transfer transfer(a, a, m) succeeds,
and the resulting stored balance of a equals its pre-transfer balance plus
m (the balance is unchanged only when m is zero). -/
theorem self_transfer_amended (p : BalancesPallet) (a : AccountId) (m : Nat)
    (h1 : m ≤ balance p a) (h2 : balance p a + m < U128_MOD) :
    (transfer p a a m).2 = Except.ok () ∧
    balance (transfer p a a m).1 a = balance p a + m := by
  rw [transfer_eq_ok p a a m h1 h2]
  refine ⟨rfl, ?_⟩
  show (btGet (btInsert a (balance p a + m) (btInsert a (balance p a - m) p.balances)) a).getD 0
      = balance p a + m
  rw [btGet_insert_self]
  rfl

/-- Witness for the amended C1 at a concrete input. -/
theorem self_transfer_amended_witness :
    30 ≤ balance demoBalances "alice" ∧
    balance demoBalances "alice" + 30 < U128_MOD ∧
    (transfer demoBalances "alice" "alice" 30).2 = Except.ok () ∧
    balance (transfer demoBalances "alice" "alice" 30).1 "alice"
      = balance demoBalances "alice" + 30 :=
  ⟨by decide, by decide,
    (self_transfer_amended demoBalances "alice" 30 (by decide) (by decide)).1,
    (self_transfer_amended demoBalances "alice" 30 (by decide) (by decide)).2⟩

/-- C5: transfer fails with the insufficient-funds error whenever the amount
exceeds the caller balance, and whenever transfer fails with any error the
balances state is exactly as it was before the call. -/
theorem transfer_insufficient_atomic (p : BalancesPallet) (a b : AccountId) (amt : Nat) :
    (balance p a < amt → transfer p a b amt = (p, Except.error "Insufficient funds.")) ∧
    (∀ e, (transfer p a b amt).2 = Except.error e → (transfer p a b amt).1 = p) := by
  constructor
  · exact transfer_eq_insufficient p a b amt
  · intro e he
    refine transfer_error_state p a b amt ?_
    rw [he]
    exact fun hx => Except.noConfusion hx

/-- Witness for C5 at a concrete input. -/
theorem transfer_insufficient_atomic_witness :
    balance (⟨[]⟩ : BalancesPallet) "alice" < 50 ∧
    transfer (⟨[]⟩ : BalancesPallet) "alice" "bob" 50
      = (⟨[]⟩, Except.error "Insufficient funds.") :=
  ⟨by decide, (transfer_insufficient_atomic ⟨[]⟩ "alice" "bob" 50).1 (by decide)⟩

/-- C6: after a successful transfer between distinct accounts, the caller
balance decreases by exactly the amount, the destination balance increases
by exactly the amount, every other account is unchanged, and the total
stored balance is conserved. -/
theorem transfer_success_effects (p : BalancesPallet) (a b : AccountId) (amt : Nat)
    (hne : a ≠ b) (hok : (transfer p a b amt).2 = Except.ok ()) :
    balance (transfer p a b amt).1 a + amt = balance p a ∧
    balance (transfer p a b amt).1 b = balance p b + amt ∧
    (∀ c, c ≠ a → c ≠ b → balance (transfer p a b amt).1 c = balance p c) ∧
    totalBalance (transfer p a b amt).1 = totalBalance p := by
  have h1 : amt ≤ balance p a := by
    by_contra hc
    rw [transfer_eq_insufficient p a b amt (not_le.mp hc)] at hok
    exact Except.noConfusion hok
  have h2 : balance p b + amt < U128_MOD := by
    by_contra hc
    rw [transfer_eq_overflow p a b amt h1 (not_lt.mp hc)] at hok
    exact Except.noConfusion hok
  have hstate : (transfer p a b amt).1 =
      ⟨btInsert b (balance p b + amt) (btInsert a (balance p a - amt) p.balances)⟩ := by
    rw [transfer_eq_ok p a b amt h1 h2]
  rw [hstate]
  refine ⟨?_, ?_, ?_, ?_⟩
  · show (btGet (btInsert b (balance p b + amt) (btInsert a (balance p a - amt) p.balances)) a).getD 0
        + amt = balance p a
    rw [btGet_insert_ne _ b a _ hne, btGet_insert_self]
    exact Nat.sub_add_cancel h1
  · show (btGet (btInsert b (balance p b + amt) (btInsert a (balance p a - amt) p.balances)) b).getD 0
        = balance p b + amt
    rw [btGet_insert_self]
    rfl
  · intro c hca hcb
    show (btGet (btInsert b (balance p b + amt) (btInsert a (balance p a - amt) p.balances)) c).getD 0
        = balance p c
    rw [btGet_insert_ne _ b c _ hcb, btGet_insert_ne _ a c _ hca]
    rfl
  · show valSum (btInsert b (balance p b + amt) (btInsert a (balance p a - amt) p.balances))
        = valSum p.balances
    have e1 := valSum_insert p.balances a (balance p a - amt)
    have e2 := valSum_insert (btInsert a (balance p a - amt) p.balances) b (balance p b + amt)
    rw [btGet_insert_ne p.balances a b _ (Ne.symm hne)] at e2
    have ha : (btGet p.balances a).getD 0 = balance p a := rfl
    have hb : (btGet p.balances b).getD 0 = balance p b := rfl
    rw [ha] at e1
    rw [hb] at e2
    omega

/-- Witness for C6 at a concrete input. -/
theorem transfer_success_effects_witness :
    ("alice" : AccountId) ≠ "bob" ∧
    (transfer demoBalances "alice" "bob" 55).2 = Except.ok () ∧
    balance (transfer demoBalances "alice" "bob" 55).1 "alice" + 55
      = balance demoBalances "alice" ∧
    balance (transfer demoBalances "alice" "bob" 55).1 "bob"
      = balance demoBalances "bob" + 55 ∧
    totalBalance (transfer demoBalances "alice" "bob" 55).1 = totalBalance demoBalances :=
  ⟨by decide, rfl,
    (transfer_success_effects demoBalances "alice" "bob" 55 (by decide) rfl).1,
    (transfer_success_effects demoBalances "alice" "bob" 55 (by decide) rfl).2.1,
    (transfer_success_effects demoBalances "alice" "bob" 55 (by decide) rfl).2.2.2⟩

/-- C7: create_claim fails with the already-claimed error and leaves the
state unchanged when the content is already a key of the claims map, and
otherwise succeeds and stores the caller as the owner of the content. -/
theorem create_claim_spec (p : PoePallet) (caller : AccountId) (c : Content) :
    ((get_claim p c).isSome = true →
      create_claim p caller c = (p, Except.error "This content is already been claimed.")) ∧
    (get_claim p c = none →
      (create_claim p caller c).2 = Except.ok () ∧
      get_claim (create_claim p caller c).1 c = some caller) := by
  constructor
  · intro h
    have hb : btContains p.claims c = true := h
    simp [create_claim, hb]
  · intro h
    have hb : btContains p.claims c = false := by
      have hg : btGet p.claims c = none := h
      simp [btContains, hg]
    constructor
    · simp [create_claim, hb]
    · show get_claim (if btContains p.claims c = true then _ else _ : PoePallet × DispatchResult).1 c
          = some caller
      rw [hb]
      show btGet (btInsert c caller p.claims) c = some caller
      exact btGet_insert_self p.claims c caller

/-- Witness for C7 at a concrete input. -/
theorem create_claim_spec_witness :
    (get_claim demoClaims "hello").isSome = true ∧
    create_claim demoClaims "bob" "hello"
      = (demoClaims, Except.error "This content is already been claimed.") :=
  ⟨by decide, (create_claim_spec demoClaims "bob" "hello").1 (by decide)⟩

/-- C8: revoke_claim fails with the claim-not-found error when the content
is absent, fails with the not-claim-owner error when the stored owner
differs from the caller (the map unchanged in both failure cases), and when
the caller owns the claim it succeeds and removes the entry. The Nodup
hypothesis is the key-uniqueness invariant of the Rust BTreeMap. -/
theorem revoke_claim_spec (p : PoePallet) (caller : AccountId) (c : Content)
    (hnd : (p.claims.map Prod.fst).Nodup) :
    (get_claim p c = none →
      revoke_claim p caller c = (p, Except.error "Claim does not exist.")) ∧
    (∀ owner, get_claim p c = some owner → owner ≠ caller →
      revoke_claim p caller c = (p, Except.error "This content is owned by some other user.")) ∧
    (get_claim p c = some caller →
      (revoke_claim p caller c).2 = Except.ok () ∧
      get_claim (revoke_claim p caller c).1 c = none) := by
  refine ⟨?_, ?_, ?_⟩
  · intro h
    simp [revoke_claim, h]
  · intro owner h hno
    simp [revoke_claim, h, hno]
  · intro h
    constructor
    · simp [revoke_claim, h]
    · have hs : (revoke_claim p caller c).1 = ⟨btRemove c p.claims⟩ := by
        simp [revoke_claim, h]
      rw [hs]
      show btGet (btRemove c p.claims) c = none
      exact btGet_remove_self p.claims c hnd

/-- Witness for C8 at a concrete input. -/
theorem revoke_claim_spec_witness :
    (demoClaims.claims.map Prod.fst).Nodup ∧
    get_claim demoClaims "hello" = some "alice" ∧
    (revoke_claim demoClaims "alice" "hello").2 = Except.ok () ∧
    get_claim (revoke_claim demoClaims "alice" "hello").1 "hello" = none :=
  ⟨by decide, by decide,
    ((revoke_claim_spec demoClaims "alice" "hello" (by decide)).2.2 (by decide)).1,
    ((revoke_claim_spec demoClaims "alice" "hello" (by decide)).2.2 (by decide)).2⟩

/-- C9: incrementing the block number and incrementing a nonce are total:
for every state they produce a new state with the wrapped successor value
(and touch nothing else), including at the largest u32 value, where the
unchecked increment wraps to zero. -/
theorem increment_no_failure (s : SystemPallet) (who : AccountId) :
    (inc_block_number s).block_number = (s.block_number + 1) % U32_MOD ∧
    (inc_block_number s).nonce = s.nonce ∧
    (inc_nonce s who).block_number = s.block_number ∧
    nonceOf (inc_nonce s who) who = (nonceOf s who + 1) % U32_MOD ∧
    (inc_block_number ⟨U32_MOD - 1, s.nonce⟩).block_number = 0 ∧
    nonceOf (inc_nonce ⟨s.block_number, [(who, U32_MOD - 1)]⟩ who) who = 0 := by
  refine ⟨rfl, rfl, rfl, ?_, ?_, ?_⟩
  · show (btGet (btInsert who (((btGet s.nonce who).getD 0 + 1) % U32_MOD) s.nonce) who).getD 0
        = ((btGet s.nonce who).getD 0 + 1) % U32_MOD
    rw [btGet_insert_self]
    rfl
  · show (U32_MOD - 1 + 1) % U32_MOD = 0
    norm_num [U32_MOD]
  · show (btGet (btInsert who (((btGet [(who, U32_MOD - 1)] who).getD 0 + 1) % U32_MOD)
        [(who, U32_MOD - 1)]) who).getD 0 = 0
    rw [btGet_insert_self]
    show ((btGet [(who, U32_MOD - 1)] who).getD 0 + 1) % U32_MOD = 0
    have hw : btGet [(who, U32_MOD - 1)] who = some (U32_MOD - 1) := by
      simp [btGet]
    rw [hw]
    show (U32_MOD - 1 + 1) % U32_MOD = 0
    norm_num [U32_MOD]

/-- C10: dispatching a Balances call through the Runtime leaves the claims
map, the block number and all nonces unchanged, and dispatching a Proof of
Existence call leaves all balances, the block number and all nonces
unchanged. -/
theorem dispatch_frame_effects (rt : Runtime) (caller : AccountId) :
    (∀ bcall : BalancesCall,
      (runtimeDispatch rt caller (RuntimeCall.Balances bcall)).1.proof_of_existence
          = rt.proof_of_existence ∧
      (runtimeDispatch rt caller (RuntimeCall.Balances bcall)).1.system.block_number
          = rt.system.block_number ∧
      (runtimeDispatch rt caller (RuntimeCall.Balances bcall)).1.system.nonce
          = rt.system.nonce) ∧
    (∀ pcall : PoeCall,
      (runtimeDispatch rt caller (RuntimeCall.ProofOfExistence pcall)).1.balances
          = rt.balances ∧
      (runtimeDispatch rt caller (RuntimeCall.ProofOfExistence pcall)).1.system.block_number
          = rt.system.block_number ∧
      (runtimeDispatch rt caller (RuntimeCall.ProofOfExistence pcall)).1.system.nonce
          = rt.system.nonce) :=
  ⟨fun _ => ⟨rfl, rfl, rfl⟩, fun _ => ⟨rfl, rfl, rfl⟩⟩

/-- C2: when the incremented block number differs from the header number,
execute_block returns the block-validation error, dispatches no extrinsic
and increments no nonce (balances, claims and nonces are all unchanged),
while the block number remains advanced by one. -/
theorem execute_block_mismatch (rt : Runtime) (b : Block)
    (h : (rt.system.block_number + 1) % U32_MOD ≠ b.header.block_number) :
    (execute_block rt b).2 = Except.error "The current block number is invalid." ∧
    (execute_block rt b).1.balances = rt.balances ∧
    (execute_block rt b).1.proof_of_existence = rt.proof_of_existence ∧
    (execute_block rt b).1.system.nonce = rt.system.nonce ∧
    (execute_block rt b).1.system.block_number = (rt.system.block_number + 1) % U32_MOD := by
  have hcond : ({ rt with system := inc_block_number rt.system } : Runtime).system.block_number
      ≠ b.header.block_number := h
  simp only [execute_block]
  rw [if_pos hcond]
  exact ⟨rfl, rfl, rfl, rfl, rfl⟩

/-- Witness for C2 at a concrete input. -/
theorem execute_block_mismatch_witness :
    (demoRuntime.system.block_number + 1) % U32_MOD ≠ demoBadBlock.header.block_number ∧
    (execute_block demoRuntime demoBadBlock).2
      = Except.error "The current block number is invalid." ∧
    (execute_block demoRuntime demoBadBlock).1.system.nonce = demoRuntime.system.nonce ∧
    (execute_block demoRuntime demoBadBlock).1.system.block_number
      = (demoRuntime.system.block_number + 1) % U32_MOD :=
  ⟨by decide,
    (execute_block_mismatch demoRuntime demoBadBlock (by decide)).1,
    (execute_block_mismatch demoRuntime demoBadBlock (by decide)).2.2.2.1,
    (execute_block_mismatch demoRuntime demoBadBlock (by decide)).2.2.2.2⟩

/-- C3: when the header number equals the incremented block number,
execute_block returns Ok and its final state is the left fold of the
per-extrinsic step over the extrinsics in their given order; moreover an
extrinsic whose dispatch fails contributes only its nonce increment, so the
failure does not abort the block and later extrinsics take effect. -/
theorem execute_block_ok_in_order (rt : Runtime) (b : Block)
    (h : b.header.block_number = (rt.system.block_number + 1) % U32_MOD) :
    (execute_block rt b).2 = Except.ok () ∧
    (execute_block rt b).1
      = b.extrinsics.foldl applyExtrinsic { rt with system := inc_block_number rt.system } ∧
    (∀ (st : Runtime) (ex : Extrinsic),
      (runtimeDispatch { st with system := inc_nonce st.system ex.caller } ex.caller ex.call).2
          ≠ Except.ok () →
      applyExtrinsic st ex = { st with system := inc_nonce st.system ex.caller }) := by
  have hcond : ¬ (({ rt with system := inc_block_number rt.system } : Runtime).system.block_number
      ≠ b.header.block_number) := by
    simp [inc_block_number, h]
  refine ⟨?_, ?_, ?_⟩
  · simp only [execute_block]
    rw [if_neg hcond]
  · simp only [execute_block]
    rw [if_neg hcond]
    exact processExtrinsics_eq_foldl b.extrinsics _
  · intro st ex hfail
    exact runtimeDispatch_error_state _ ex.caller ex.call hfail

/-- Witness for C3 at a concrete input: a block whose first extrinsic fails
still executes to completion with Ok. -/
theorem execute_block_ok_in_order_witness :
    demoBlock.header.block_number = (demoRuntime.system.block_number + 1) % U32_MOD ∧
    (execute_block demoRuntime demoBlock).2 = Except.ok () ∧
    (execute_block demoRuntime demoBlock).1
      = demoBlock.extrinsics.foldl applyExtrinsic
          { demoRuntime with system := inc_block_number demoRuntime.system } :=
  ⟨by decide,
    (execute_block_ok_in_order demoRuntime demoBlock (by decide)).1,
    (execute_block_ok_in_order demoRuntime demoBlock (by decide)).2.1⟩

/-- The nonce of the extrinsic caller after one loop iteration: incremented
by one (wrapping), whatever the dispatch outcome. -/
theorem applyExtrinsic_nonce_self (rt : Runtime) (ex : Extrinsic) :
    nonceOf (applyExtrinsic rt ex).system ex.caller
      = (nonceOf rt.system ex.caller + 1) % U32_MOD := by
  rw [applyExtrinsic_system]
  show (btGet (btInsert ex.caller (((btGet rt.system.nonce ex.caller).getD 0 + 1) % U32_MOD)
      rt.system.nonce) ex.caller).getD 0
    = ((btGet rt.system.nonce ex.caller).getD 0 + 1) % U32_MOD
  rw [btGet_insert_self]
  rfl

/-- The nonce of any other account is untouched by one loop iteration. -/
theorem applyExtrinsic_nonce_ne (rt : Runtime) (ex : Extrinsic) (a : AccountId)
    (h : ex.caller ≠ a) :
    nonceOf (applyExtrinsic rt ex).system a = nonceOf rt.system a := by
  rw [applyExtrinsic_system]
  show (btGet (btInsert ex.caller (((btGet rt.system.nonce ex.caller).getD 0 + 1) % U32_MOD)
      rt.system.nonce) a).getD 0 = (btGet rt.system.nonce a).getD 0
  rw [btGet_insert_ne _ _ _ _ (Ne.symm h)]

theorem U32_MOD_pos : 0 < U32_MOD := by
  norm_num [U32_MOD]

/-- Running the extrinsic loop adds to the nonce of an account exactly the
number of its extrinsics, modulo 2 ^ 32. -/
theorem processExtrinsics_nonce (a : AccountId) (xs : List Extrinsic) (rt : Runtime)
    (h : nonceOf rt.system a < U32_MOD) :
    nonceOf (processExtrinsics rt xs).system a
      = (nonceOf rt.system a + xs.countP (fun ex => ex.caller == a)) % U32_MOD := by
  induction xs generalizing rt with
  | nil =>
    simp only [processExtrinsics, List.countP_nil, Nat.add_zero]
    exact (Nat.mod_eq_of_lt h).symm
  | cons ex rest ih =>
    rw [processExtrinsics, List.countP_cons]
    by_cases hc : ex.caller = a
    · have hstep : nonceOf (applyExtrinsic rt ex).system a
          = (nonceOf rt.system a + 1) % U32_MOD := by
        rw [← hc]
        exact applyExtrinsic_nonce_self rt ex
      have hlt : nonceOf (applyExtrinsic rt ex).system a < U32_MOD := by
        rw [hstep]
        exact Nat.mod_lt _ U32_MOD_pos
      rw [ih (applyExtrinsic rt ex) hlt, hstep]
      simp only [hc, beq_self_eq_true, if_pos]
      rw [Nat.mod_add_mod]
      congr 1
      omega
    · have hstep := applyExtrinsic_nonce_ne rt ex a hc
      have hlt : nonceOf (applyExtrinsic rt ex).system a < U32_MOD := by
        rw [hstep]
        exact h
      rw [ih (applyExtrinsic rt ex) hlt, hstep]
      have hbeq : (ex.caller == a) = false := beq_eq_false_iff_ne.mpr hc
      simp [hbeq]

/-- C4: for every accepted block, execute_block increments the nonce of each
extrinsic caller once per extrinsic regardless of the dispatch outcome: an
account with k extrinsics in the block ends with its nonce advanced by k
(modulo 2 ^ 32). The bound hypothesis is the u32 typing invariant of stored
nonces. -/
theorem execute_block_nonce_count (rt : Runtime) (b : Block) (a : AccountId)
    (h : b.header.block_number = (rt.system.block_number + 1) % U32_MOD)
    (hn : nonceOf rt.system a < U32_MOD) :
    nonceOf (execute_block rt b).1.system a
      = (nonceOf rt.system a + b.extrinsics.countP (fun ex => ex.caller == a)) % U32_MOD := by
  have hcond : ¬ (({ rt with system := inc_block_number rt.system } : Runtime).system.block_number
      ≠ b.header.block_number) := by
    simp [inc_block_number, h]
  simp only [execute_block]
  rw [if_neg hcond]
  exact processExtrinsics_nonce a b.extrinsics _ hn

/-- Witness for C4 at a concrete input: an account submitting two extrinsics
in the block (one failing, one succeeding) ends with nonce 2. -/
theorem execute_block_nonce_count_witness :
    nonceOf (execute_block demoRuntime demoBlock).1.system "alice" = 2 := by
  have h := execute_block_nonce_count demoRuntime demoBlock "alice" (by decide) (by decide)
  exact h.trans (by decide)

end StateMachine
